import Mathlib

/-!
Verification of the db-client core (src/app.rs, src/database.rs) against its
natural-language specification.

Strings are modelled at the level of `List Char`.  All SQL keywords and the
inputs appearing in the claims are ASCII, where Rust byte indices coincide
with character indices, `str::to_uppercase` is the character-wise ASCII
upper-casing, and `str::trim` strips the usual whitespace characters; the
embedding fixes that interpretation.  A Rust `panic!` (out-of-range string
slicing, integer division by zero) is modelled by returning `none` from the
embedded function.
-/

/-- Character-wise upper-casing, the ASCII-faithful model of
`str::to_uppercase`. -/
def upperL (l : List Char) : List Char := l.map Char.toUpper

/-- Model of `char::is_whitespace` on the ASCII range. -/
def isWsp (c : Char) : Bool := c.isWhitespace

/-- Leading-whitespace strip, first half of `str::trim`. -/
def trimLeading (l : List Char) : List Char := l.dropWhile isWsp

/-- Trailing-whitespace strip, second half of `str::trim`. -/
def trimTrailing (l : List Char) : List Char := (l.reverse.dropWhile isWsp).reverse

/-- Model of `str::trim`. -/
def trimL (l : List Char) : List Char := trimTrailing (trimLeading l)

/-- Model of `str::trim_end_matches(';')`: strips every trailing `';'`. -/
def trimEndSemis (l : List Char) : List Char := (l.reverse.dropWhile (fun c => c = ';')).reverse

/-- Helper for `findIdx`: first index `≥ i` at which `n` occurs in the
remaining list.  Models `str::find` for a pattern `n`. -/
def findIdxAux (n : List Char) : List Char → Nat → Option Nat
  | [], i => if n.isEmpty then some i else none
  | c :: rest, i =>
    if n.isPrefixOf (c :: rest) then some i else findIdxAux n rest (i + 1)

/-- Model of `str::find(pat)`: index of the first occurrence of `n` in `l`. -/
def findIdx (l n : List Char) : Option Nat := findIdxAux n l 0

/-- Helper for `rfindIdx`. -/
def rfindIdxAux (n : List Char) : List Char → Nat → Option Nat
  | [], i => if n.isEmpty then some i else none
  | c :: rest, i =>
    match rfindIdxAux n rest (i + 1) with
    | some j => some j
    | none => if n.isPrefixOf (c :: rest) then some i else none

/-- Model of `str::rfind(pat)`: index of the last occurrence of `n` in `l`. -/
def rfindIdx (l n : List Char) : Option Nat := rfindIdxAux n l 0

/-- Model of `str::contains(pat)`: `n` occurs as a contiguous substring. -/
def containsSub (l n : List Char) : Bool := decide (n <:+: l)

/-- Model of `str::parse::<usize>()` (`usize` = 64 bits): optional leading
`'+'`, then one or more ASCII digits, rejecting overflow. -/
def parseUsize (s : String) : Option Nat :=
  let l := match s.data with
    | '+' :: rest => rest
    | l => l
  if l.isEmpty then none
  else if l.all Char.isDigit then
    let v := l.foldl (fun acc c => acc * 10 + (c.toNat - 48)) 0
    if v < 2 ^ 64 then some v else none
  else none

/-! ## Data model (src/database.rs) -/

/-- `TableInfo` from src/database.rs (`row_count` is an `Option<i64>`). -/
structure TableInfo where
  name : String
  schema : Option String
  row_count : Option Int
deriving DecidableEq, Repr

/-- `QueryResult` from src/database.rs.  `execution_time` is wall time in
abstract ticks. -/
structure QueryResult where
  columns : List String
  rows : List (List String)
  affected_rows : Option Nat
  execution_time : Nat
  total_count : Option Nat
deriving DecidableEq, Repr

instance {ε α : Type} [DecidableEq ε] [DecidableEq α] : DecidableEq (Except ε α) := fun a b =>
  match a, b with
  | .ok x, .ok y =>
    match decEq x y with
    | isTrue h => isTrue (by rw [h])
    | isFalse h => isFalse (fun hc => h (by cases hc; rfl))
  | .error x, .error y =>
    match decEq x y with
    | isTrue h => isTrue (by rw [h])
    | isFalse h => isFalse (fun hc => h (by cases hc; rfl))
  | .ok _, .error _ => isFalse (fun hc => by cases hc)
  | .error _, .ok _ => isFalse (fun hc => by cases hc)

/-- `true` iff an `Except` value is `Ok` (Rust `Result::is_ok`). -/
def exceptIsOk {ε α : Type} : Except ε α → Bool
  | .ok _ => true
  | .error _ => false

/-! ## `DatabasePool::get_tables` (src/database.rs:196-267)

The pool is abstracted by the outcome of the catalog listing query and by a
`count` oracle giving the outcome of the per-table `SELECT COUNT(*)` probe. -/

/-- SQLite branch of `get_tables`: the per-table count probe is awaited with
`?`, so its error propagates; on success `row_count` is `Some`. -/
def get_tables_sqlite (listing : Except String (List String))
    (count : String → Except String Int) : Except String (List TableInfo) :=
  listing.bind fun names =>
    names.mapM fun n => (count n).map fun c => TableInfo.mk n none (some c)

/-- PostgreSQL branch of `get_tables`: the listing yields
(schemaname, tablename) pairs and the count probe result is taken with
`.ok()`, degrading failures to `None`. -/
def get_tables_postgres (listing : Except String (List (String × String)))
    (count : String × String → Except String Int) : Except String (List TableInfo) :=
  listing.map fun rows =>
    rows.map fun p => TableInfo.mk p.2 (some p.1) (count p).toOption

/-- MySQL branch of `get_tables` (`SHOW TABLES`): the count probe result is
taken with `.ok()`, degrading failures to `None`. -/
def get_tables_mysql (listing : Except String (List String))
    (count : String → Except String Int) : Except String (List TableInfo) :=
  listing.map fun names =>
    names.map fun n => TableInfo.mk n none (count n).toOption

/-! ## `DatabasePool::execute_query` (src/database.rs:404-581)

A fetched row is a list of raw cells; each raw cell records which of the
typed reads (`try_get::<String>`, `try_get::<i64>`, `try_get::<f64>`,
`try_get::<bool>`, `try_get::<DateTime<Utc>>`) would succeed, and with what
value.  The rendering of an `f64` by `f64::to_string` is kept opaque as the
pre-rendered string carried by `F64Repr`. -/

/-- An `f64` cell value, abstracted by its `to_string` rendering. -/
structure F64Repr where
  rendered : String
deriving DecidableEq, Repr

/-- A `chrono::DateTime<chrono::Utc>` cell value (date and time fields). -/
structure Timestamp where
  year : Nat
  month : Nat
  day : Nat
  hour : Nat
  minute : Nat
  second : Nat
deriving DecidableEq, Repr

/-- Zero-padding to two digits, as in chrono `%m`, `%d`, `%H`, `%M`, `%S`. -/
def pad2 (n : Nat) : String := if n < 10 then "0" ++ toString n else toString n

/-- Zero-padding to four digits, as in chrono `%Y`. -/
def pad4 (n : Nat) : String :=
  if n < 10 then "000" ++ toString n
  else if n < 100 then "00" ++ toString n
  else if n < 1000 then "0" ++ toString n
  else toString n

/-- chrono's `format("%Y-%m-%d %H:%M:%S")`. -/
def formatTimestamp (t : Timestamp) : String :=
  pad4 t.year ++ "-" ++ pad2 t.month ++ "-" ++ pad2 t.day ++ " " ++
    pad2 t.hour ++ ":" ++ pad2 t.minute ++ ":" ++ pad2 t.second

/-- Rust `bool::to_string`. -/
def boolToString (b : Bool) : String := if b then "true" else "false"

/-- One cell of a fetched row: the outcomes of the five typed `try_get`
reads (`none` = that read errors). -/
structure RawCell where
  asStr : Option String
  asInt : Option Int
  asFloat : Option F64Repr
  asBool : Option Bool
  asTs : Option Timestamp
deriving DecidableEq, Repr

/-- A cell on which every typed read fails; `try_get` at an out-of-range
index behaves like this. -/
def nullCell : RawCell := RawCell.mk none none none none none

/-- `row.try_get(i)` for each supported type, out-of-range reads failing. -/
def cellAt (row : List RawCell) (i : Nat) : RawCell := row.getD i nullCell

/-- A fetched row set: the shared column names (from `rows[0].columns()`)
and the raw rows. -/
structure RawResult where
  columnNames : List String
  rows : List (List RawCell)
deriving DecidableEq, Repr

/-- Cell-to-string coercion of the SQLite branch
(src/database.rs:433-451): native string, else i64, else f64, else bool,
else timestamp formatted `%Y-%m-%d %H:%M:%S`, else the literal "NULL". -/
def coerce_cell_sqlite (c : RawCell) : String :=
  match c.asStr with
  | some s => s
  | none =>
    match c.asInt with
    | some i => toString i
    | none =>
      match c.asFloat with
      | some f => f.rendered
      | none =>
        match c.asBool with
        | some b => boolToString b
        | none =>
          match c.asTs with
          | some d => formatTimestamp d
          | none => "NULL"

/-- Cell-to-string coercion of the PostgreSQL branch
(src/database.rs:490-508). -/
def coerce_cell_postgres (c : RawCell) : String :=
  match c.asStr with
  | some s => s
  | none =>
    match c.asInt with
    | some i => toString i
    | none =>
      match c.asFloat with
      | some f => f.rendered
      | none =>
        match c.asBool with
        | some b => boolToString b
        | none =>
          match c.asTs with
          | some d => formatTimestamp d
          | none => "NULL"

/-- Cell-to-string coercion of the MySQL branch
(src/database.rs:547-565). -/
def coerce_cell_mysql (c : RawCell) : String :=
  match c.asStr with
  | some s => s
  | none =>
    match c.asInt with
    | some i => toString i
    | none =>
      match c.asFloat with
      | some f => f.rendered
      | none =>
        match c.asBool with
        | some b => boolToString b
        | none =>
          match c.asTs with
          | some d => formatTimestamp d
          | none => "NULL"

/-- The ordered fallback chain as worded by the spec (§4.1 `execute`):
"native string → 64-bit integer → 64-bit float → boolean → timestamp
(formatted as `YYYY-MM-DD HH:MM:SS`) → literal `"NULL"`". -/
def spec_display_chain (c : RawCell) : String :=
  match c.asStr with
  | some s => s
  | none =>
    match c.asInt with
    | some i => toString i
    | none =>
      match c.asFloat with
      | some f => f.rendered
      | none =>
        match c.asBool with
        | some b => boolToString b
        | none =>
          match c.asTs with
          | some d => formatTimestamp d
          | none => "NULL"

/-- SQLite branch of `DatabasePool::execute_query`
(src/database.rs:408-464): propagate a fetch error; an empty row set gives
the empty result with `affected_rows = Some 0` and `total_count = Some 0`;
otherwise materialize every cell of every row over the column indices. -/
def execute_query_sqlite (elapsed : Nat) (fetched : Except String RawResult) :
    Except String QueryResult :=
  match fetched with
  | .error e => .error e
  | .ok raw =>
    if raw.rows.isEmpty then
      .ok (QueryResult.mk [] [] (some 0) elapsed (some 0))
    else
      .ok (QueryResult.mk raw.columnNames
        (raw.rows.map fun row =>
          (List.range raw.columnNames.length).map fun i =>
            coerce_cell_sqlite (cellAt row i))
        none elapsed none)

/-- PostgreSQL branch of `DatabasePool::execute_query`
(src/database.rs:465-521). -/
def execute_query_postgres (elapsed : Nat) (fetched : Except String RawResult) :
    Except String QueryResult :=
  match fetched with
  | .error e => .error e
  | .ok raw =>
    if raw.rows.isEmpty then
      .ok (QueryResult.mk [] [] (some 0) elapsed (some 0))
    else
      .ok (QueryResult.mk raw.columnNames
        (raw.rows.map fun row =>
          (List.range raw.columnNames.length).map fun i =>
            coerce_cell_postgres (cellAt row i))
        none elapsed none)

/-- MySQL branch of `DatabasePool::execute_query`
(src/database.rs:522-578). -/
def execute_query_mysql (elapsed : Nat) (fetched : Except String RawResult) :
    Except String QueryResult :=
  match fetched with
  | .error e => .error e
  | .ok raw =>
    if raw.rows.isEmpty then
      .ok (QueryResult.mk [] [] (some 0) elapsed (some 0))
    else
      .ok (QueryResult.mk raw.columnNames
        (raw.rows.map fun row =>
          (List.range raw.columnNames.length).map fun i =>
            coerce_cell_mysql (cellAt row i))
        none elapsed none)

/-! ## Query executor helpers (src/app.rs) -/

/-- The keyword `LIMIT` as a character list. -/
def limitTok : List Char := "LIMIT".data

/-- The keyword `SELECT` as a character list. -/
def selectTok : List Char := "SELECT".data

/-- The keyword `FROM` as a character list. -/
def fromTok : List Char := "FROM".data

/-- `App::auto_limit_query` (src/app.rs:950-961): if the upper-cased text
contains no `LIMIT` but contains `SELECT`, append
`" LIMIT <results_per_page>"` to the text with trailing semicolons
stripped; otherwise return the text unchanged. -/
def auto_limit_query (results_per_page : Nat) (query : String) : String :=
  let query_upper := upperL query.data
  if !containsSub query_upper limitTok && containsSub query_upper selectTok then
    String.mk (trimEndSemis query.data ++ (" LIMIT " ++ toString results_per_page).data)
  else
    query

/-- First stage of `App::generate_count_query` (src/app.rs:993-1001): strip
the text before the last occurrence of `LIMIT` in the *trimmed* upper-cased
copy, slicing the *untrimmed* original at that index (`none` models the
panic of an out-of-range slice), then `trim` the remainder. -/
def stripLimitClause (q : List Char) : Option (List Char) :=
  match rfindIdx (upperL (trimL q)) limitTok with
  | some i => if i ≤ q.length then some (trimL (q.take i)) else none
  | none => some (trimL q)

/-- Second stage (src/app.rs:1004): strip trailing semicolons. -/
def queryCleanOpt (q : List Char) : Option (List Char) :=
  (stripLimitClause q).map trimEndSemis

/-- `App::generate_count_query` (src/app.rs:993-1014), on character lists:
locate the first `FROM` in the trimmed upper-cased copy and slice the
(differently derived) cleaned statement at that index, prefixing
`SELECT COUNT(*) `; with no `FROM`, wrap the cleaned statement as a
subquery.  `none` models the panic of an out-of-range slice. -/
def generateCountQueryL (q : List Char) : Option (List Char) :=
  match queryCleanOpt q with
  | none => none
  | some clean =>
    match findIdx (upperL (trimL q)) fromTok with
    | some i =>
      if i ≤ clean.length then
        some ("SELECT COUNT(*) ".data ++ clean.drop i)
      else none
    | none => some ("SELECT COUNT(*) FROM (".data ++ clean ++ [')'])

/-- `App::generate_count_query` on `String`s. -/
def generate_count_query (query : String) : Option String :=
  (generateCountQueryL query.data).map String.mk

/-- Side condition under which the first-`FROM` offset that
`generate_count_query` computes on the trimmed upper-cased copy lies, with
the whole keyword, inside the cleaned statement it actually slices. -/
def fromWindowOk (q : List Char) : Bool :=
  match findIdx (upperL q) fromTok, queryCleanOpt q with
  | some i, some clean => decide (i + 4 ≤ clean.length)
  | _, _ => true

/-- The count-statement derivation as worded by the spec (§4.2 step 2 and
claim C3): strip the trailing `LIMIT` clause located at the last
case-insensitive occurrence of the token, strip the trailing terminator,
and replace everything before the first `FROM` keyword *of the cleaned
statement* with `SELECT COUNT(*)`, wrapping the cleaned statement as a
subquery when it has no `FROM`.  All searches and slices are performed on
the same statement, so this derivation is total. -/
def specCountQuery (q : List Char) : List Char :=
  let noLimit :=
    match rfindIdx (upperL q) limitTok with
    | some i => trimL (q.take i)
    | none => trimL q
  let clean := trimEndSemis noLimit
  match findIdx (upperL clean) fromTok with
  | some i => "SELECT COUNT(*) ".data ++ clean.drop i
  | none => "SELECT COUNT(*) FROM (".data ++ clean ++ [')']

/-- The row-returning test of `App::execute_query` (src/app.rs:507):
`query.trim().to_uppercase().starts_with("SELECT")`. -/
def startsWithSelect (query : String) : Bool :=
  selectTok.isPrefixOf (upperL (trimL query.data))

/-- `App::execute_query` (src/app.rs:502-562), with the pool abstracted as
a map from SQL text to the outcome of `DatabasePool::execute_query`.  For a
SELECT statement the derived count statement is executed first: its first
cell parsed as `usize` (0 on any failure, including a failing count query)
becomes the total count; for a non-SELECT statement the total count is 0.
The safety-limited statement is then executed and `total_count` is set to
`Some` of that total on success.  `none` models a panic inside
`generate_count_query`. -/
def execute_query (pool : String → Except String QueryResult)
    (results_per_page : Nat) (query : String) :
    Option (Except String QueryResult) :=
  let totalCount? : Option Nat :=
    if startsWithSelect query then
      match generate_count_query query with
      | none => none
      | some cq =>
        some (match pool cq with
          | .ok cr => ((cr.rows.head?.bind fun r => r.head?.bind parseUsize).getD 0)
          | .error _ => 0)
    else some 0
  match totalCount? with
  | none => none
  | some tc =>
    some ((pool (auto_limit_query results_per_page query)).map
      fun r => { r with total_count := some tc })

/-! ## Pagination view (src/app.rs:922-948) -/

/-- `App::get_current_page_results` (src/app.rs:922-934): the slice
`rows[start..end]` with `start = current_page * results_per_page` and
`end = min(start + results_per_page, rows.len())`, empty when `start` is
out of range or when there is no current result. -/
def get_current_page_results (result : Option QueryResult)
    (current_page results_per_page : Nat) : List (List String) :=
  match result with
  | some r =>
    let start := current_page * results_per_page
    let stop := min (start + results_per_page) r.rows.length
    if start < r.rows.length then (r.rows.drop start).take (stop - start) else []
  | none => []

/-- `App::get_total_pages` (src/app.rs:936-948):
`ceil(total_rows / results_per_page)` with
`total_rows = total_count.unwrap_or(rows.len())`, computed as
`(total_rows + results_per_page - 1) / results_per_page`; 0 when
`total_rows` is 0 or there is no result.  `none` models the division-by-zero
panic when `results_per_page = 0` and `total_rows > 0`. -/
def get_total_pages (result : Option QueryResult) (results_per_page : Nat) :
    Option Nat :=
  match result with
  | some r =>
    let total_rows := r.total_count.getD r.rows.length
    if total_rows = 0 then some 0
    else if results_per_page = 0 then none
    else some ((total_rows + results_per_page - 1) / results_per_page)
  | none => some 0

/-- Concatenation of the page slices for pages `0 .. pages-1` of a result. -/
def pagesJoin (r : QueryResult) (results_per_page pages : Nat) :
    List (List String) :=
  ((List.range pages).map fun p =>
    get_current_page_results (some r) p results_per_page).flatten

/-! ## Connection lifecycle (src/app.rs:433-455, 739-792) -/

/-- Which of the raced futures of `App::perform_connection` resolves first:
`DatabasePool::connect` completing within the window (with the engine's
verbatim result), the 120-second timeout elapsing, or the cancellation
token firing.  The pool handle is abstracted by a `Nat` identifier. -/
inductive ConnectOutcome where
  | completed (r : Except String Nat)
  | timedOut
  | cancelled
deriving DecidableEq, Repr

/-- `App::perform_connection` (src/app.rs:433-455): an engine result is
returned verbatim; the timeout wraps tokio's `Elapsed` display
("deadline has elapsed") as `"Connection failed: …"`; cancellation yields
`"Connection cancelled"`. -/
def perform_connection : ConnectOutcome → Except String Nat
  | .completed r => r
  | .timedOut => .error ("Connection failed: " ++ "deadline has elapsed")
  | .cancelled => .error "Connection cancelled"

/-- The fields of `App` (src/app.rs:20-61) read or written by
`App::cancel_connection`, plus representative untouched fields.  The tokio
`JoinHandle` and `CancellationToken` are abstracted by identifiers. -/
structure AppConn where
  is_connecting : Bool
  status_message : Option String
  error_message : Option String
  spinner_frame : Nat
  connection_task : Option Nat
  cancel_token : Option Nat
deriving DecidableEq, Repr

/-- `App::cancel_connection` (src/app.rs:739-750): cancel the token and
abort the task if present (external effects), then unconditionally clear
`is_connecting`, set `status_message` to "Connection cancelled" and drop
the task and token. -/
def cancel_connection (s : AppConn) : AppConn :=
  { s with
    is_connecting := false
    status_message := some "Connection cancelled"
    connection_task := none
    cancel_token := none }

/-! ## Concrete fixtures used by witnesses and counterexamples -/

/-- An empty normalized result, as a pool backend would return it. -/
def emptyQR : QueryResult := QueryResult.mk [] [] none 0 none

/-- A pool stub whose every statement returns the empty result. -/
def constPool : String → Except String QueryResult := fun _ => .ok emptyQR

/-- A raw cell whose native-string read succeeds. -/
def strCell (s : String) : RawCell := RawCell.mk (some s) none none none none

/-- A raw cell on which only the `i64` read succeeds. -/
def intCell (i : Int) : RawCell := RawCell.mk none (some i) none none none

/-- A two-column, one-row fetched row set. -/
def rawFixture : RawResult := RawResult.mk ["a", "b"] [[strCell "x", intCell 7]]

/-- A three-row result with no total count, for pagination witnesses. -/
def pageFixture : QueryResult := QueryResult.mk ["c"] [["r0"], ["r1"], ["r2"]] none 0 none

/-- A one-row result, for the pagination counterexample. -/
def oneRowQR : QueryResult := QueryResult.mk ["c"] [["r0"]] none 0 none

/-- An application state with no connection attempt in flight. -/
def idleApp : AppConn := AppConn.mk false (some "hello") none 3 none none

/-! ## Helper lemmas: trimming -/

theorem reverse_dropWhile_reverse_isPrefix (p : Char → Bool) (l : List Char) :
    (l.reverse.dropWhile p).reverse <+: l := by
  obtain ⟨t, ht⟩ := List.dropWhile_suffix (l := l.reverse) p
  refine ⟨t.reverse, ?_⟩
  have h2 := congrArg List.reverse ht
  rwa [List.reverse_append, List.reverse_reverse] at h2

theorem trimTrailing_isPrefix (l : List Char) : trimTrailing l <+: l :=
  reverse_dropWhile_reverse_isPrefix isWsp l

theorem trimEndSemis_isPrefix (l : List Char) : trimEndSemis l <+: l :=
  reverse_dropWhile_reverse_isPrefix (fun c => c = ';') l

theorem trimLeading_of_trimL_eq {l : List Char} (h : trimL l = l) :
    trimLeading l = l := by
  have h1 : trimLeading l <:+ l := List.dropWhile_suffix isWsp
  have h2 : trimL l <+: trimLeading l := trimTrailing_isPrefix (trimLeading l)
  have h3 : l.length ≤ (trimLeading l).length := by
    have := h2.length_le
    rw [h] at this
    exact this
  exact h1.eq_of_length (Nat.le_antisymm h1.length_le h3)

theorem trimLeading_take {l : List Char} (h : trimLeading l = l) (n : Nat) :
    trimLeading (l.take n) = l.take n := by
  cases l with
  | nil => simp [trimLeading]
  | cons c t =>
    have hc : isWsp c = false := by
      by_contra hw
      have hw' : isWsp c = true := by
        cases hcc : isWsp c
        · exact absurd hcc hw
        · rfl
      have hlen := (List.dropWhile_suffix (l := t) isWsp).length_le
      have : trimLeading (c :: t) = t.dropWhile isWsp := by
        simp [trimLeading, List.dropWhile_cons, hw']
      rw [this] at h
      have := congrArg List.length h
      simp at this
      omega
    cases n with
    | zero => simp [trimLeading]
    | succ m => simp [trimLeading, List.dropWhile_cons, hc]

theorem trimL_take_isPrefix {l : List Char} (h : trimL l = l) (n : Nat) :
    trimL (l.take n) <+: l.take n := by
  have h1 := trimLeading_of_trimL_eq h
  show trimTrailing (trimLeading (l.take n)) <+: l.take n
  rw [trimLeading_take h1]
  exact trimTrailing_isPrefix _

theorem trimL_length_le (l : List Char) : (trimL l).length ≤ l.length :=
  Nat.le_trans (trimTrailing_isPrefix (trimLeading l)).length_le
    (List.dropWhile_suffix isWsp).length_le

/-! ## Helper lemmas: substring search -/

theorem findIdxAux_shift (n l : List Char) (i : Nat) :
    findIdxAux n l i = (findIdxAux n l 0).map (· + i) := by
  induction l generalizing i with
  | nil => cases hni : n.isEmpty <;> simp [findIdxAux, hni]
  | cons c t ih =>
    by_cases hp : n.isPrefixOf (c :: t)
    · simp [findIdxAux, hp]
    · simp only [findIdxAux, hp, Bool.false_eq_true, if_false]
      rw [ih (i + 1), ih 1]
      cases findIdxAux n t 0 with
      | none => rfl
      | some a => simp; omega

theorem findIdx_cons (c : Char) (l n : List Char) :
    findIdx (c :: l) n =
      if n.isPrefixOf (c :: l) then some 0 else (findIdx l n).map (· + 1) := by
  by_cases hp : n.isPrefixOf (c :: l) <;>
    simp only [findIdx, findIdxAux, hp, Bool.false_eq_true, if_false, if_true]
  exact findIdxAux_shift n l 1

theorem findIdx_of_empty_pattern (l : List Char) : findIdx l [] = some 0 := by
  cases l <;> simp [findIdx, findIdxAux, List.isPrefixOf]

theorem prefix_of_append_of_length {n a b : List Char}
    (h : n <+: a ++ b) (hl : n.length ≤ a.length) : n <+: a := by
  have h1 : n = (a ++ b).take n.length := List.prefix_iff_eq_take.mp h
  have h2 : (a ++ b).take n.length = a.take n.length := by
    rw [List.take_append_eq_append_take]
    simp [Nat.sub_eq_zero_of_le hl]
  exact List.prefix_iff_eq_take.mpr (h1.trans h2)

theorem findIdx_append_none {a r n : List Char}
    (h : findIdx (a ++ r) n = none) : findIdx a n = none := by
  induction a with
  | nil =>
    by_cases hn : n.isEmpty
    · exfalso
      have hnil : n = [] := by cases n with
        | nil => rfl
        | cons x xs => simp [List.isEmpty] at hn
      rw [hnil] at h
      rw [List.nil_append, findIdx_of_empty_pattern] at h
      exact Option.noConfusion h
    · simp [findIdx, findIdxAux, hn]
  | cons c t ih =>
    rw [List.cons_append, findIdx_cons] at h
    rw [findIdx_cons]
    by_cases hp2 : n.isPrefixOf (c :: (t ++ r))
    · simp [hp2] at h
    · have hp : ¬ n.isPrefixOf (c :: t) := by
        intro hpt
        exact hp2 (List.isPrefixOf_iff_prefix.mpr
          ((List.isPrefixOf_iff_prefix.mp hpt).trans
            (List.prefix_append (c :: t) r)))
      simp only [hp2, Bool.false_eq_true, if_false, Option.map_eq_none'] at h
      simp only [hp, Bool.false_eq_true, if_false, ih h, Option.map_none']

theorem findIdx_append_some {a r n : List Char} {i : Nat}
    (h : findIdx (a ++ r) n = some i) (hw : i + n.length ≤ a.length) :
    findIdx a n = some i := by
  induction a generalizing i with
  | nil =>
    simp only [List.length_nil, Nat.le_zero, Nat.add_eq_zero] at hw
    obtain ⟨hi, hn⟩ := hw
    have hnil : n = [] := List.length_eq_zero.mp hn
    subst hnil
    rw [findIdx_of_empty_pattern]
    rw [hi]
  | cons c t ih =>
    rw [List.cons_append, findIdx_cons] at h
    rw [findIdx_cons]
    by_cases hp2 : n.isPrefixOf (c :: (t ++ r))
    · simp only [hp2, if_true, Option.some.injEq] at h
      subst h
      have hp : n.isPrefixOf (c :: t) := by
        apply List.isPrefixOf_iff_prefix.mpr
        apply prefix_of_append_of_length (b := r)
        · exact List.isPrefixOf_iff_prefix.mp hp2
        · simpa using hw
      simp [hp]
    · simp only [hp2, Bool.false_eq_true, if_false, Option.map_eq_some'] at h
      obtain ⟨j, hj, hji⟩ := h
      have hw' : j + n.length ≤ t.length := by
        simp only [List.length_cons] at hw
        omega
      have hp : ¬ n.isPrefixOf (c :: t) := by
        intro hpt
        exact hp2 (List.isPrefixOf_iff_prefix.mpr
          ((List.isPrefixOf_iff_prefix.mp hpt).trans
            (List.prefix_append (c :: t) r)))
      simp only [hp, Bool.false_eq_true, if_false, ih hj hw', Option.map_some', hji]

theorem rfindIdxAux_bound {n : List Char} (hn : n ≠ []) :
    ∀ (l : List Char) (k i : Nat), rfindIdxAux n l k = some i →
      k ≤ i ∧ i < k + l.length := by
  intro l
  induction l with
  | nil =>
    intro k i h
    have : n.isEmpty = false := by cases n with
      | nil => exact absurd rfl hn
      | cons x xs => rfl
    simp [rfindIdxAux, this] at h
  | cons c t ih =>
    intro k i h
    unfold rfindIdxAux at h
    cases hr : rfindIdxAux n t (k + 1) with
    | some j =>
      rw [hr] at h
      have hj := ih (k + 1) j hr
      simp only [Option.some.injEq] at h
      subst h
      simp only [List.length_cons]
      omega
    | none =>
      rw [hr] at h
      by_cases hp : n.isPrefixOf (c :: t)
      · simp only [hp, if_true, Option.some.injEq] at h
        subst h
        simp only [List.length_cons]
        omega
      · simp [hp] at h

theorem rfindIdx_lt_length {l n : List Char} (hn : n ≠ []) {i : Nat}
    (h : rfindIdx l n = some i) : i < l.length := by
  have := rfindIdxAux_bound hn l 0 i h
  omega

/-! ## Helper lemmas: `contains` -/

theorem containsSub_iff (l n : List Char) : containsSub l n = true ↔ n <:+: l := by
  simp [containsSub]

theorem containsSub_append_right {b n : List Char} (a : List Char)
    (h : containsSub b n = true) : containsSub (a ++ b) n = true := by
  rw [containsSub_iff] at h ⊢
  exact h.trans (List.suffix_append a b).isInfix

theorem appended_contains_limit (x : List Char) (n : Nat) :
    containsSub (upperL (x ++ (" LIMIT " ++ toString n).data)) limitTok = true := by
  have hdata : (" LIMIT " ++ toString n).data = " LIMIT ".data ++ (toString n).data :=
    String.data_append _ _
  rw [containsSub_iff]
  show limitTok <:+: (x ++ (" LIMIT " ++ toString n).data).map Char.toUpper
  rw [hdata, List.map_append, List.map_append]
  have h1 : limitTok <:+: " LIMIT ".data.map Char.toUpper := by decide
  have h2 : " LIMIT ".data.map Char.toUpper <+:
      " LIMIT ".data.map Char.toUpper ++ (toString n).data.map Char.toUpper :=
    List.prefix_append _ _
  exact ((h1.trans h2.isInfix).trans
    (List.suffix_append (x.map Char.toUpper) _).isInfix)

/-! ## Claim C7 -/

/-- Claim C7 (confirmed): the cell-to-string coercion of `execute_query` is
the same function in all three engine branches — the ordered fallback chain
native string → i64 → f64 → bool → timestamp (`YYYY-MM-DD HH:MM:SS`) →
literal "NULL" worded by the spec — and consequently the three per-engine
row-materialization embeddings are extensionally equal. -/
theorem c7_coercion_chain_uniform :
    (∀ c, coerce_cell_sqlite c = coerce_cell_postgres c) ∧
    (∀ c, coerce_cell_postgres c = coerce_cell_mysql c) ∧
    (∀ c, coerce_cell_sqlite c = spec_display_chain c) ∧
    (∀ elapsed fetched, execute_query_sqlite elapsed fetched =
      execute_query_postgres elapsed fetched) ∧
    (∀ elapsed fetched, execute_query_postgres elapsed fetched =
      execute_query_mysql elapsed fetched) :=
  ⟨fun _ => rfl, fun _ => rfl, fun _ => rfl, fun _ _ => rfl, fun _ _ => rfl⟩

/-! ## Claim C6 -/

/-- Claim C6 (confirmed): every `QueryResult` produced by `execute_query`,
on any of the three backends, has exactly `columns.length` cells in every
row. -/
theorem c6_row_width (elapsed : Nat) (fetched : Except String RawResult)
    (qr : QueryResult)
    (h : execute_query_sqlite elapsed fetched = .ok qr ∨
      execute_query_postgres elapsed fetched = .ok qr ∨
      execute_query_mysql elapsed fetched = .ok qr) :
    qr.rows.all (fun row => row.length == qr.columns.length) = true := by
  have hs : execute_query_sqlite elapsed fetched = .ok qr := by
    rcases h with h | h | h <;> exact h
  unfold execute_query_sqlite at hs
  cases fetched with
  | error e => exact Except.noConfusion hs
  | ok raw =>
    by_cases hre : raw.rows.isEmpty
    · simp only [hre, if_true, Except.ok.injEq] at hs
      subst hs
      rfl
    · simp only [hre, Bool.false_eq_true, if_false, Except.ok.injEq] at hs
      subst hs
      simp only [List.all_eq_true, List.mem_map, beq_iff_eq]
      rintro row ⟨raw_row, _, rfl⟩
      simp

/-- Witness for C6 at a concrete two-column fetched row set. -/
theorem c6_row_width_witness :
    (QueryResult.mk ["a", "b"] [["x", "7"]] none 0 none).rows.all
      (fun row => row.length ==
        (QueryResult.mk ["a", "b"] [["x", "7"]] none 0 none).columns.length) = true :=
  c6_row_width 0 (.ok rawFixture) (QueryResult.mk ["a", "b"] [["x", "7"]] none 0 none)
    (Or.inl (by decide))

/-! ## Claim C8 -/

/-- Claim C8 (counterexample): with no connection attempt in flight
(`connection_task` and `cancel_token` both `None`), `cancel_connection` is
not a no-op — it overwrites `status_message` with "Connection cancelled". -/
theorem c8_counterexample :
    idleApp.connection_task = none ∧ idleApp.cancel_token = none ∧
    cancel_connection idleApp ≠ idleApp ∧
    idleApp.status_message = some "hello" ∧
    (cancel_connection idleApp).status_message = some "Connection cancelled" := by
  refine ⟨rfl, rfl, ?_, rfl, rfl⟩
  decide

/-- Claim C8 (corrected): `cancel_connection` is idempotent, and every field
other than `is_connecting`, `status_message`, `connection_task` and
`cancel_token` is left unchanged; but even when no attempt is in flight it
forces `is_connecting := false` and overwrites `status_message` with
"Connection cancelled". -/
theorem c8_cancel_idempotent_frame (s : AppConn) :
    cancel_connection (cancel_connection s) = cancel_connection s ∧
    (cancel_connection s).error_message = s.error_message ∧
    (cancel_connection s).spinner_frame = s.spinner_frame ∧
    (cancel_connection s).is_connecting = false ∧
    (cancel_connection s).status_message = some "Connection cancelled" ∧
    (cancel_connection s).connection_task = none ∧
    (cancel_connection s).cancel_token = none :=
  ⟨rfl, rfl, rfl, rfl, rfl, rfl, rfl⟩

/-! ## Claim C9 -/

/-- Claim C9 (counterexample): an engine-reported connect failure whose
message is exactly "Connection cancelled" is indistinguishable from the
cancellation outcome, so the three terminal failure causes do not carry
different messages for every engine error. -/
theorem c9_counterexample :
    perform_connection (.completed (.error "Connection cancelled")) =
      perform_connection .cancelled := rfl

/-- Claim C9 (corrected): timeout and cancellation produce the fixed
classified messages "Connection failed: deadline has elapsed" and
"Connection cancelled", which differ from each other, and they differ from
an engine-reported connect failure (returned verbatim) whenever the
engine's message is not itself one of those two fixed strings. -/
theorem c9_failure_classification :
    perform_connection .timedOut =
      .error "Connection failed: deadline has elapsed" ∧
    perform_connection .cancelled = .error "Connection cancelled" ∧
    perform_connection .timedOut ≠ perform_connection .cancelled ∧
    (∀ e : String, e ≠ "Connection failed: deadline has elapsed" →
      e ≠ "Connection cancelled" →
      perform_connection (.completed (.error e)) ≠ perform_connection .timedOut ∧
      perform_connection (.completed (.error e)) ≠ perform_connection .cancelled) := by
  refine ⟨rfl, rfl, by decide, fun e h1 h2 => ⟨fun hc => h1 ?_, fun hc => h2 ?_⟩⟩
  · injection hc
  · injection hc

/-- Witness for C9 at a concrete engine failure message. -/
theorem c9_failure_classification_witness :
    perform_connection (.completed (.error "db offline")) ≠
      perform_connection .timedOut ∧
    perform_connection (.completed (.error "db offline")) ≠
      perform_connection .cancelled :=
  c9_failure_classification.2.2.2 "db offline" (by decide) (by decide)

/-! ## Claim C10 -/

/-- Claim C10 (code bug): `generate_count_query` does not return on every
input — on "SELECT 1 LIMIT 2 FROM" the first `FROM` offset (17, computed on
the trimmed upper-cased copy) exceeds the length (8) of the cleaned
statement "SELECT 1" that is actually sliced, a byte-index-out-of-bounds
panic, which also aborts `execute_query` instead of degrading the count to
0 as the spec's failure policy requires. -/
theorem c10_generate_count_query_panics :
    generate_count_query "SELECT 1 LIMIT 2 FROM" = none ∧
    startsWithSelect "SELECT 1 LIMIT 2 FROM" = true ∧
    execute_query constPool 50 "SELECT 1 LIMIT 2 FROM" = none := by
  refine ⟨by decide, by decide, ?_⟩
  decide

/-! ## Claim C2 -/

/-- Claim C2 (counterexample): for the non-SELECT statement
"DELETE FROM t", `execute_query` returns a result whose `total_count` is
`Some 0`, not `None`. -/
theorem c2_counterexample :
    execute_query constPool 50 "DELETE FROM t" =
      some (.ok (QueryResult.mk [] [] none 0 (some 0))) ∧
    (some 0 : Option Nat) ≠ none := by
  refine ⟨?_, by decide⟩
  decide

/-- Claim C2 (corrected): for every statement whose trimmed, case-folded
text does not start with SELECT, `execute_query` skips count-statement
synthesis — the pool only ever executes the safety-limited statement — and
returns its result with `total_count` set to `Some 0` (not `None`). -/
theorem c2_non_select_total_count (pool : String → Except String QueryResult)
    (results_per_page : Nat) (query : String)
    (h : startsWithSelect query = false) :
    execute_query pool results_per_page query =
      some ((pool (auto_limit_query results_per_page query)).map
        fun r => { r with total_count := some 0 }) := by
  unfold execute_query
  rw [h]
  simp

/-- Witness for C2 at a concrete non-SELECT statement. -/
theorem c2_non_select_total_count_witness :
    startsWithSelect "DELETE FROM t" = false ∧
    execute_query constPool 50 "DELETE FROM t" =
      some ((constPool (auto_limit_query 50 "DELETE FROM t")).map
        fun r => { r with total_count := some 0 }) :=
  ⟨by decide, c2_non_select_total_count constPool 50 "DELETE FROM t" (by decide)⟩

/-! ## Claim C1 -/

/-- Claim C1 (counterexample): in the SQLite branch a failing per-table
row-count probe propagates with `?` and fails the whole listing instead of
yielding `row_count = None` for that table. -/
theorem c1_counterexample :
    get_tables_sqlite (.ok ["t"]) (fun _ => .error "probe failed") =
      .error "probe failed" ∧
    exceptIsOk (get_tables_sqlite (.ok ["t"]) (fun _ => .error "probe failed")) =
      false := by
  constructor <;> rfl

/-- Claim C1 (corrected): for PostgreSQL and MySQL a failing row-count probe
degrades that table to `row_count = None` while the listing still succeeds;
for SQLite, however, the listing succeeds exactly when every per-table
probe succeeds, a probe failure failing the whole listing. -/
theorem c1_probe_degradation :
    (∀ (rows : List (String × String)) (count : String × String → Except String Int),
      get_tables_postgres (.ok rows) count =
        .ok (rows.map fun p => TableInfo.mk p.2 (some p.1) (count p).toOption)) ∧
    (∀ (names : List String) (count : String → Except String Int),
      get_tables_mysql (.ok names) count =
        .ok (names.map fun n => TableInfo.mk n none (count n).toOption)) ∧
    (∀ (names : List String) (count : String → Except String Int),
      exceptIsOk (get_tables_sqlite (.ok names) count) =
        names.all fun n => exceptIsOk (count n)) := by
  refine ⟨fun _ _ => rfl, fun _ _ => rfl, fun names count => ?_⟩
  induction names with
  | nil => rfl
  | cons n ns ih =>
    show exceptIsOk ((n :: ns).mapM fun m =>
      (count m).map fun c => TableInfo.mk m none (some c)) = _
    rw [List.mapM_cons, List.all_cons]
    have ih' : exceptIsOk (ns.mapM fun m =>
        (count m).map fun c => TableInfo.mk m none (some c)) =
        ns.all fun m => exceptIsOk (count m) := ih
    rw [← ih']
    cases hc : count n with
    | error e =>
      simp [hc, Except.map, Bind.bind, Except.bind, exceptIsOk]
    | ok c =>
      cases hm : ns.mapM (fun m =>
          (count m).map fun c => TableInfo.mk m none (some c)) with
      | error e' =>
        simp [hc, hm, Except.map, Bind.bind, Except.bind, exceptIsOk]
      | ok ts =>
        simp [hc, hm, Except.map, Bind.bind, Except.bind, exceptIsOk,
          Pure.pure, Except.pure]

/-! ## Claim C4 -/

/-- Claim C4 (confirmed): `auto_limit_query` leaves any statement whose
case-folded text already contains `LIMIT` unchanged, is idempotent on every
input, and on a statement containing `SELECT` but no `LIMIT` appends
`" LIMIT <page size>"` after stripping trailing semicolons. -/
theorem c4_auto_limit_idempotent (n : Nat) (q : String) :
    (containsSub (upperL q.data) limitTok = true → auto_limit_query n q = q) ∧
    auto_limit_query n (auto_limit_query n q) = auto_limit_query n q ∧
    (containsSub (upperL q.data) selectTok = true →
      containsSub (upperL q.data) limitTok = false →
      auto_limit_query n q =
        String.mk (trimEndSemis q.data ++ (" LIMIT " ++ toString n).data)) := by
  refine ⟨fun hl => ?_, ?_, fun hs hl => ?_⟩
  · unfold auto_limit_query
    simp [hl]
  · by_cases hcond : (!containsSub (upperL q.data) limitTok &&
        containsSub (upperL q.data) selectTok) = true
    · have hq : auto_limit_query n q =
          String.mk (trimEndSemis q.data ++ (" LIMIT " ++ toString n).data) := by
        unfold auto_limit_query
        rw [if_pos hcond]
      rw [hq]
      unfold auto_limit_query
      rw [if_neg]
      intro hc
      rw [Bool.and_eq_true] at hc
      have h1 : containsSub
          (upperL (trimEndSemis q.data ++ (" LIMIT " ++ toString n).data))
          limitTok = false := by
        have h2 := hc.1
        rw [Bool.not_eq_true'] at h2
        exact h2
      rw [appended_contains_limit (trimEndSemis q.data) n] at h1
      exact Bool.noConfusion h1
    · have hq : auto_limit_query n q = q := by
        unfold auto_limit_query
        rw [if_neg hcond]
      rw [hq]
      exact hq
  · unfold auto_limit_query
    rw [if_pos]
    rw [hs, hl]
    rfl

/-- Witness for C4 at concrete statements. -/
theorem c4_auto_limit_idempotent_witness :
    (containsSub (upperL "SELECT 1 LIMIT 5".data) limitTok = true ∧
      auto_limit_query 50 "SELECT 1 LIMIT 5" = "SELECT 1 LIMIT 5") ∧
    (containsSub (upperL "select 2;".data) selectTok = true ∧
      containsSub (upperL "select 2;".data) limitTok = false ∧
      auto_limit_query 50 "select 2;" =
        String.mk (trimEndSemis "select 2;".data ++ (" LIMIT " ++ toString 50).data)) :=
  ⟨⟨by decide, (c4_auto_limit_idempotent 50 "SELECT 1 LIMIT 5").1 (by decide)⟩,
    ⟨by decide, by decide,
      (c4_auto_limit_idempotent 50 "select 2;").2.2 (by decide) (by decide)⟩⟩

/-! ## Helper lemmas: pagination -/

theorem get_current_page_results_eq (r : QueryResult) (page pp : Nat) :
    get_current_page_results (some r) page pp = (r.rows.drop (page * pp)).take pp := by
  show (if page * pp < r.rows.length then
      List.take (min (page * pp + pp) r.rows.length - page * pp)
        (List.drop (page * pp) r.rows)
    else []) = _
  by_cases hs : page * pp < r.rows.length
  · rw [if_pos hs, List.take_eq_take, List.length_drop]
    omega
  · rw [if_neg hs, List.drop_eq_nil_of_le (by omega)]
    simp

theorem pagesJoin_reconstruct (pp : Nat) (hpp : 0 < pp) :
    ∀ (T : Nat) (rows : List (List String)),
      (if rows.length = 0 then 0 else (rows.length + pp - 1) / pp) = T →
      ((List.range T).map fun p => (rows.drop (p * pp)).take pp).flatten = rows := by
  intro T
  induction T with
  | zero =>
    intro rows h
    have h0 : rows.length = 0 := by
      by_contra hne
      rw [if_neg hne] at h
      have h1 : pp ≤ rows.length + pp - 1 := by omega
      have := (Nat.one_le_div_iff hpp).mpr h1
      omega
    rw [List.length_eq_zero.mp h0]
    simp
  | succ T ih =>
    intro rows h
    have hlen : rows.length ≠ 0 := by
      intro h0
      rw [if_pos h0] at h
      exact Nat.noConfusion h
    rw [if_neg hlen] at h
    have harith : (if (rows.drop pp).length = 0 then 0
        else ((rows.drop pp).length + pp - 1) / pp) = T := by
      rw [List.length_drop]
      have e1 : rows.length + pp - 1 = (rows.length - 1) + pp := by omega
      rw [e1, Nat.add_div_right _ hpp] at h
      have hT : T = (rows.length - 1) / pp := by omega
      by_cases hd : rows.length - pp = 0
      · rw [if_pos hd, hT]
        have hlt : rows.length - 1 < pp := by omega
        rw [Nat.div_eq_of_lt hlt]
      · rw [if_neg hd]
        have e2 : rows.length - pp + pp - 1 = (rows.length - pp - 1) + pp := by omega
        rw [e2, Nat.add_div_right _ hpp]
        have e3 : rows.length - 1 = (rows.length - pp - 1) + pp := by omega
        rw [hT, e3, Nat.add_div_right _ hpp]
    have hmap : ((List.range T).map
        ((fun p => (rows.drop (p * pp)).take pp) ∘ Nat.succ)) =
        (List.range T).map fun p => ((rows.drop pp).drop (p * pp)).take pp := by
      apply List.map_congr_left
      intro p _
      simp only [Function.comp]
      rw [List.drop_drop, Nat.succ_mul, Nat.add_comm]
    rw [List.range_succ_eq_map, List.map_cons, List.flatten_cons, List.map_map, hmap,
      ih (rows.drop pp) harith]
    simp only [Nat.zero_mul, List.drop_zero]
    exact List.take_append_drop pp rows

/-! ## Claim C5 -/

/-- Claim C5 (counterexample): with page size 0 and a nonempty result,
`get_total_pages` divides by zero (`(total + 0 - 1) / 0`, a panic in the
source), so no page count exists for which concatenating the page slices
could reconstruct the rows. -/
theorem c5_counterexample :
    get_total_pages (some oneRowQR) 0 = none ∧
    ¬ ∃ T, get_total_pages (some oneRowQR) 0 = some T ∧
      pagesJoin oneRowQR 0 T = oneRowQR.rows := by
  refine ⟨by decide, ?_⟩
  rintro ⟨T, hT, _⟩
  have h0 : get_total_pages (some oneRowQR) 0 = none := by decide
  rw [h0] at hT
  exact Option.noConfusion hT

/-- Claim C5 (corrected): the page slice equals
`rows[page*page_size .. min((page+1)*page_size, len(rows))]`, is empty when
`page*page_size ≥ len(rows)`, and never holds more than `page_size` rows —
for every page size; but the concatenation of the slices for pages
`0 .. total_pages-1` reconstructs the rows (when `total_count` is `None` or
equals `len(rows)`) only for `page_size ≥ 1`, since `get_total_pages`
divides by zero at page size 0. -/
theorem c5_pagination (r : QueryResult) (page pp : Nat) :
    get_current_page_results (some r) page pp =
      (r.rows.take (min ((page + 1) * pp) r.rows.length)).drop (page * pp) ∧
    (r.rows.length ≤ page * pp → get_current_page_results (some r) page pp = []) ∧
    (get_current_page_results (some r) page pp).length ≤ pp ∧
    (0 < pp → r.total_count = none ∨ r.total_count = some r.rows.length →
      ∃ T, get_total_pages (some r) pp = some T ∧ pagesJoin r pp T = r.rows) := by
  refine ⟨?_, fun h => ?_, ?_, fun hpp htc => ?_⟩
  · rw [get_current_page_results_eq, List.drop_take]
    have e : (page + 1) * pp = page * pp + pp := by ring
    rw [e, List.take_eq_take, List.length_drop]
    omega
  · rw [get_current_page_results_eq, List.drop_eq_nil_of_le h]
    simp
  · rw [get_current_page_results_eq, List.length_take, List.length_drop]
    omega
  · refine ⟨if r.rows.length = 0 then 0 else (r.rows.length + pp - 1) / pp, ?_, ?_⟩
    · have htot : r.total_count.getD r.rows.length = r.rows.length := by
        rcases htc with h | h <;> simp [h]
      have hppne : pp ≠ 0 := by omega
      simp only [get_total_pages, htot]
      by_cases h0 : r.rows.length = 0
      · simp [h0]
      · simp [h0, hppne]
    · have hjoin := pagesJoin_reconstruct pp hpp
        (if r.rows.length = 0 then 0 else (r.rows.length + pp - 1) / pp) r.rows rfl
      unfold pagesJoin
      rw [List.map_congr_left fun p _ => get_current_page_results_eq r p pp]
      exact hjoin

/-- Witness for C5 at a three-row result with page size 2. -/
theorem c5_pagination_witness :
    (get_current_page_results (some pageFixture) 5 1 = []) ∧
    (∃ T, get_total_pages (some pageFixture) 2 = some T ∧
      pagesJoin pageFixture 2 T = pageFixture.rows) :=
  ⟨(c5_pagination pageFixture 5 1).2.1 (by decide),
    (c5_pagination pageFixture 0 2).2.2.2 (by decide) (Or.inl rfl)⟩

/-! ## Helper lemmas: count-query derivation -/

theorem c3_from_branch {d clean : List Char}
    (htrim : trimL d = d)
    (hclean : queryCleanOpt d = some clean)
    (hpre : clean <+: d)
    (hspec : specCountQuery d =
      (match findIdx (upperL clean) fromTok with
        | some j => "SELECT COUNT(*) ".data ++ clean.drop j
        | none => "SELECT COUNT(*) FROM (".data ++ clean ++ [')']))
    (hw : fromWindowOk d = true) :
    generateCountQueryL d = some (specCountQuery d) := by
  have hupc : upperL (trimL d) = upperL d := by rw [htrim]
  obtain ⟨rest, hrest⟩ : upperL clean <+: upperL d := hpre.map Char.toUpper
  unfold generateCountQueryL
  rw [hclean]
  simp only [hupc, hspec]
  cases hfi : findIdx (upperL d) fromTok with
  | some i =>
    have hwi : i + 4 ≤ clean.length := by
      unfold fromWindowOk at hw
      rw [hfi, hclean] at hw
      simpa using hw
    have hfi2 : findIdx (upperL clean) fromTok = some i := by
      apply findIdx_append_some (r := rest)
      · rw [hrest]
        exact hfi
      · show i + fromTok.length ≤ (upperL clean).length
        rw [upperL, List.length_map]
        exact hwi
    rw [hfi2]
    simp only [if_pos (by omega : i ≤ clean.length)]
  | none =>
    have hfi2 : findIdx (upperL clean) fromTok = none := by
      apply findIdx_append_none (r := rest)
      rw [hrest]
      exact hfi
    rw [hfi2]

/-! ## Claim C3 -/

/-- Claim C3 (counterexample): on "  SELECT a, b FROM t LIMIT 5" (leading
whitespace), the byte offsets computed on the trimmed upper-cased copy are
applied to differently derived strings, so `generate_count_query` yields
"SELECT COUNT(*) FROM" while the derivation described by the claim yields
"SELECT COUNT(*) FROM t". -/
theorem c3_counterexample :
    generate_count_query "  SELECT a, b FROM t LIMIT 5" =
      some "SELECT COUNT(*) FROM" ∧
    String.mk (specCountQuery "  SELECT a, b FROM t LIMIT 5".data) =
      "SELECT COUNT(*) FROM t" ∧
    (some "SELECT COUNT(*) FROM" : Option String) ≠
      some "SELECT COUNT(*) FROM t" :=
  ⟨by decide, by decide, by decide⟩

/-- Claim C3 (corrected): `generate_count_query` realizes the claimed
derivation — strip the trailing `LIMIT` clause at the last case-insensitive
occurrence of the token, strip trailing semicolons, replace everything
before the first `FROM` with `SELECT COUNT(*)`, wrapping as a subquery when
no `FROM` exists — and in particular maps
"SELECT * FROM t WHERE x=1 LIMIT 10;" to
"SELECT COUNT(*) FROM t WHERE x=1"; but in general only for inputs equal to
their own trim whose first `FROM`, if any, lies entirely within the cleaned
statement (`fromWindowOk`): with leading whitespace the indices land in the
wrong string. -/
theorem c3_count_query_derivation :
    generate_count_query "SELECT * FROM t WHERE x=1 LIMIT 10;" =
      some "SELECT COUNT(*) FROM t WHERE x=1" ∧
    ∀ q : String, trimL q.data = q.data → fromWindowOk q.data = true →
      generateCountQueryL q.data = some (specCountQuery q.data) := by
  refine ⟨by decide, fun q htrim hw => ?_⟩
  cases hrf : rfindIdx (upperL q.data) limitTok with
  | some i =>
    have hin : i < q.data.length := by
      have hb := rfindIdx_lt_length (by decide : limitTok ≠ []) hrf
      rwa [upperL, List.length_map] at hb
    have hstrip : stripLimitClause q.data = some (trimL (q.data.take i)) := by
      unfold stripLimitClause
      rw [htrim, hrf]
      show (if i ≤ q.data.length then some (trimL (q.data.take i)) else none) = _
      rw [if_pos (Nat.le_of_lt hin)]
    have hclean : queryCleanOpt q.data =
        some (trimEndSemis (trimL (q.data.take i))) := by
      unfold queryCleanOpt
      rw [hstrip]
      rfl
    have hpre : trimEndSemis (trimL (q.data.take i)) <+: q.data :=
      (trimEndSemis_isPrefix _).trans
        ((trimL_take_isPrefix htrim i).trans
          ⟨q.data.drop i, List.take_append_drop i q.data⟩)
    have hspec : specCountQuery q.data =
        (match findIdx (upperL (trimEndSemis (trimL (q.data.take i)))) fromTok with
          | some j => "SELECT COUNT(*) ".data ++
              (trimEndSemis (trimL (q.data.take i))).drop j
          | none => "SELECT COUNT(*) FROM (".data ++
              trimEndSemis (trimL (q.data.take i)) ++ [')']) := by
      simp only [specCountQuery, hrf]
    exact c3_from_branch htrim hclean hpre hspec hw
  | none =>
    have hstrip : stripLimitClause q.data = some (trimL q.data) := by
      unfold stripLimitClause
      rw [htrim, hrf]
    have hclean : queryCleanOpt q.data = some (trimEndSemis (trimL q.data)) := by
      unfold queryCleanOpt
      rw [hstrip]
      rfl
    have hpre : trimEndSemis (trimL q.data) <+: q.data := by
      rw [htrim]
      exact trimEndSemis_isPrefix _
    have hspec : specCountQuery q.data =
        (match findIdx (upperL (trimEndSemis (trimL q.data))) fromTok with
          | some j => "SELECT COUNT(*) ".data ++
              (trimEndSemis (trimL q.data)).drop j
          | none => "SELECT COUNT(*) FROM (".data ++
              trimEndSemis (trimL q.data) ++ [')']) := by
      simp only [specCountQuery, hrf]
    exact c3_from_branch htrim hclean hpre hspec hw

/-- Witness for C3 at the spec's round-trip example. -/
theorem c3_count_query_derivation_witness :
    trimL "SELECT * FROM t WHERE x=1 LIMIT 10;".data =
      "SELECT * FROM t WHERE x=1 LIMIT 10;".data ∧
    fromWindowOk "SELECT * FROM t WHERE x=1 LIMIT 10;".data = true ∧
    generateCountQueryL "SELECT * FROM t WHERE x=1 LIMIT 10;".data =
      some (specCountQuery "SELECT * FROM t WHERE x=1 LIMIT 10;".data) :=
  ⟨by decide, by decide,
    c3_count_query_derivation.2 "SELECT * FROM t WHERE x=1 LIMIT 10;"
      (by decide) (by decide)⟩
